import Mathlib

/-!
Verification of the script-execution and scheduling subsystem of the
AdminScripts dashboard (`utils/powershell_executor.py` and
`utils/schedule_manager.py`), shallowly embedded in Lean 4.

Python strings are `String`, Python lists are `List`, the parameter
mapping (an ordered dict) is an association list, machine integers are
`Int`.  Wall-clock timestamps carried by events are irrelevant to every
property considered here and are omitted from the event payloads.
-/

/-- Python `sep.join(xs)`: the elements of `xs` glued with `sep`
between consecutive elements. -/
def pyJoin (sep : String) : List String → String
  | [] => ""
  | [s] => s
  | s :: rest => s ++ sep ++ pyJoin sep rest

/-- A scalar Python value as it can appear in a request's parameter map
(JSON scalars): a boolean, a string, an integer, or `None`. -/
inductive PScalar where
  | bool (b : Bool)
  | str (s : String)
  | int (n : Int)
  | none
  deriving DecidableEq, Repr

/-- A Python parameter value: a scalar or a list of scalars. -/
inductive PValue where
  | scalar (v : PScalar)
  | list (vs : List PScalar)
  deriving DecidableEq, Repr

/-- Python `str(value)` on a scalar: `str(True) = "True"`,
`str(None) = "None"`, integers render in decimal. -/
def PScalar.pstr : PScalar → String
  | .bool true => "True"
  | .bool false => "False"
  | .str s => s
  | .int n => toString n
  | .none => "None"

namespace PowerShellExecutor

/-- The `DANGEROUS_CHARS` list from powershell_executor.py line 20:
`[';', '|', '&', '$', '`', '<', '>', '(', ')', '\n', '\r']`. -/
def DANGEROUS_CHARS : List Char := ";|&$`<>()\n\r".toList

/-- One step of the sanitizing loop: Python
`value_str.replace(char, '')`, which deletes every occurrence of the
character. -/
def removeChar (s : String) (c : Char) : String :=
  String.mk (s.toList.filter (fun d => d ≠ c))

/-- Function `sanitize_parameter` (lines 54-65): `None` becomes the empty string,
otherwise the stringified value with each dangerous character removed in
turn. -/
def sanitize_parameter (v : PScalar) : String :=
  match v with
  | .none => ""
  | v => DANGEROUS_CHARS.foldl removeChar v.pstr

/-- The regex substitution of line 79 keeps exactly the ASCII word
characters (letters, digits, underscore) of a parameter name. -/
def isWordChar (c : Char) : Bool :=
  c.isAlpha || c.isDigit || c = Char.ofNat 95

/-- The sanitized parameter name (line 79). -/
def filterName (key : String) : String :=
  String.mk (key.toList.filter isWordChar)

/-- The argument tokens contributed by the parameter map in
`build_command` (lines 76-93): booleans emit a lone `-name` flag when
true and nothing when false; lists emit `-name` and a comma-join of the
per-element sanitized values unconditionally; other scalars emit `-name`
and the sanitized value unless that value is empty. -/
def paramTokens : List (String × PValue) → List String
  | [] => []
  | (key, v) :: rest =>
    (match v with
      | .scalar (.bool true) => ["-" ++ filterName key]
      | .scalar (.bool false) => []
      | .list vs =>
          ["-" ++ filterName key,
           pyJoin "," (vs.map sanitize_parameter)]
      | .scalar sv =>
          let sanitized := sanitize_parameter sv
          if sanitized = "" then [] else ["-" ++ filterName key, sanitized])
    ++ paramTokens rest

/-- Function `build_command` (lines 67-95): the fixed pwsh invocation prefix, the
script path, then the parameter tokens. -/
def build_command (pwsh_path script_path : String)
    (parameters : List (String × PValue)) : List String :=
  [pwsh_path, "-NoProfile", "-ExecutionPolicy", "Bypass", "-File", script_path]
    ++ paramTokens parameters

end PowerShellExecutor

namespace PowerShellExecutor

theorem mem_of_mem_removeChar {x c : Char} {s : String}
    (h : x ∈ (removeChar s c).toList) : x ∈ s.toList := by
  simp only [removeChar, String.toList, List.mem_filter] at h ⊢
  exact h.1

theorem not_mem_removeChar_self (s : String) (c : Char) :
    c ∉ (removeChar s c).toList := by
  simp [removeChar, String.toList, List.mem_filter]

theorem not_mem_foldl_removeChar (l : List Char) (s : String) {c : Char}
    (h : c ∉ s.toList) : c ∉ (l.foldl removeChar s).toList := by
  induction l generalizing s with
  | nil => exact h
  | cons d l ih =>
      exact ih (removeChar s d) (fun hm => h (mem_of_mem_removeChar hm))

theorem foldl_removeChar_removes (l : List Char) (s : String) {c : Char}
    (hc : c ∈ l) : c ∉ (l.foldl removeChar s).toList := by
  induction l generalizing s with
  | nil => cases hc
  | cons d l ih =>
      rcases List.mem_cons.mp hc with h | h
      · subst h
        exact not_mem_foldl_removeChar l (removeChar s c)
          (not_mem_removeChar_self s c)
      · exact ih (removeChar s d) h

/-- The `sanitize_parameter` output never contains a dangerous character. -/
theorem sanitize_dangerfree {c : Char} (v : PScalar)
    (hc : c ∈ DANGEROUS_CHARS) : c ∉ (sanitize_parameter v).toList := by
  cases v with
  | bool b =>
      cases b <;> exact foldl_removeChar_removes _ _ hc
  | str s => exact foldl_removeChar_removes _ _ hc
  | int n => exact foldl_removeChar_removes _ _ hc
  | none => simp [sanitize_parameter, String.toList]

theorem mem_pyJoin {c : Char} {sep : String} :
    ∀ {xs : List String}, c ∈ (pyJoin sep xs).toList →
      c ∈ sep.toList ∨ ∃ x ∈ xs, c ∈ x.toList := by
  intro xs
  induction xs with
  | nil => intro h; simp [pyJoin, String.toList] at h
  | cons s rest ih =>
      cases rest with
      | nil =>
          intro h
          exact Or.inr ⟨s, List.mem_cons_self .., h⟩
      | cons t r =>
          intro h
          have hsplit : (s ++ sep ++ pyJoin sep (t :: r)).toList
              = s.toList ++ sep.toList ++ (pyJoin sep (t :: r)).toList := by
            simp [String.toList]
          rw [show pyJoin sep (s :: t :: r) = s ++ sep ++ pyJoin sep (t :: r)
              from rfl] at h
          rw [hsplit] at h
          rcases List.mem_append.mp h with h | h
          · rcases List.mem_append.mp h with h | h
            · exact Or.inr ⟨s, List.mem_cons_self .., h⟩
            · exact Or.inl h
          · rcases ih h with h | ⟨x, hx, hcx⟩
            · exact Or.inl h
            · exact Or.inr ⟨x, List.mem_cons_of_mem _ hx, hcx⟩

theorem mem_flag_token {c : Char} {key : String}
    (h : c ∈ ("-" ++ filterName key).toList) :
    c = Char.ofNat 45 ∨ isWordChar c = true := by
  have : ("-" ++ filterName key).toList = "-".toList ++ (filterName key).toList := by
    simp [String.toList]
  rw [this] at h
  rcases List.mem_append.mp h with h | h
  · left; simpa [String.toList] using h
  · right
    simp only [filterName, String.toList, List.mem_filter] at h
    exact h.2

theorem dangerous_not_word {c : Char} (hc : c ∈ DANGEROUS_CHARS) :
    isWordChar c = false := by
  fin_cases hc <;> decide

theorem dash_not_dangerous : Char.ofNat 45 ∉ DANGEROUS_CHARS := by decide

theorem comma_not_dangerous : Char.ofNat 44 ∉ DANGEROUS_CHARS := by decide

/-- The tokens produced for one map entry contain no dangerous character. -/
theorem tokens_one_dangerfree (key : String) (v : PValue) {t : String} {c : Char}
    (hc : c ∈ DANGEROUS_CHARS) (ht : t ∈ paramTokens [(key, v)]) :
    c ∉ t.toList := by
  intro hmem
  cases v with
  | scalar sv =>
      cases sv with
      | bool b =>
          cases b with
          | true =>
              simp only [paramTokens, List.append_nil, List.mem_singleton] at ht
              subst ht
              rcases mem_flag_token hmem with h | h
              · exact dash_not_dangerous (h ▸ hc)
              · exact absurd h (by simp [dangerous_not_word hc])
          | false => simp [paramTokens] at ht
      | str s =>
          simp only [paramTokens, List.append_nil] at ht
          by_cases hempty : sanitize_parameter (PScalar.str s) = ""
          · simp [hempty] at ht
          · simp only [hempty, if_neg, List.mem_cons, List.mem_singleton,
              List.not_mem_nil, or_false, if_false] at ht
            rcases ht with ht | ht
            · subst ht
              rcases mem_flag_token hmem with h | h
              · exact dash_not_dangerous (h ▸ hc)
              · exact absurd h (by simp [dangerous_not_word hc])
            · subst ht
              exact sanitize_dangerfree _ hc hmem
      | int n =>
          simp only [paramTokens, List.append_nil] at ht
          by_cases hempty : sanitize_parameter (PScalar.int n) = ""
          · simp [hempty] at ht
          · simp only [hempty, if_neg, List.mem_cons, List.mem_singleton,
              List.not_mem_nil, or_false, if_false] at ht
            rcases ht with ht | ht
            · subst ht
              rcases mem_flag_token hmem with h | h
              · exact dash_not_dangerous (h ▸ hc)
              · exact absurd h (by simp [dangerous_not_word hc])
            · subst ht
              exact sanitize_dangerfree _ hc hmem
      | none =>
          simp only [paramTokens, List.append_nil] at ht
          by_cases hempty : sanitize_parameter PScalar.none = ""
          · simp [hempty] at ht
          · simp only [hempty, if_neg, List.mem_cons, List.mem_singleton,
              List.not_mem_nil, or_false, if_false] at ht
            rcases ht with ht | ht
            · subst ht
              rcases mem_flag_token hmem with h | h
              · exact dash_not_dangerous (h ▸ hc)
              · exact absurd h (by simp [dangerous_not_word hc])
            · subst ht
              exact sanitize_dangerfree _ hc hmem
  | list vs =>
      simp only [paramTokens, List.append_nil, List.mem_cons,
        List.mem_singleton, List.not_mem_nil, or_false] at ht
      rcases ht with ht | ht
      · subst ht
        rcases mem_flag_token hmem with h | h
        · exact dash_not_dangerous (h ▸ hc)
        · exact absurd h (by simp [dangerous_not_word hc])
      · subst ht
        rcases mem_pyJoin hmem with h | ⟨x, hx, hcx⟩
        · have : c = Char.ofNat 44 := by simpa [String.toList] using h
          exact comma_not_dangerous (this ▸ hc)
        · rcases List.mem_map.mp hx with ⟨sv, _, rfl⟩
          exact sanitize_dangerfree _ hc hcx

theorem paramTokens_cons (p : String × PValue) (rest : List (String × PValue)) :
    paramTokens (p :: rest) = paramTokens [p] ++ paramTokens rest := by
  obtain ⟨key, v⟩ := p
  cases v with
  | scalar sv => cases sv <;> simp [paramTokens]
  | list vs => simp [paramTokens]

/-- No token contributed by the parameter map contains a dangerous
character (names are filtered to word characters, values are
sanitized, the joining comma and leading dash are themselves safe). -/
theorem paramTokens_dangerfree (ps : List (String × PValue)) {t : String}
    {c : Char} (hc : c ∈ DANGEROUS_CHARS) (ht : t ∈ paramTokens ps) :
    c ∉ t.toList := by
  induction ps with
  | nil => simp [paramTokens] at ht
  | cons p rest ih =>
      rw [paramTokens_cons] at ht
      rcases List.mem_append.mp ht with h | h
      · exact tokens_one_dangerfree p.1 p.2 hc h
      · exact ih h

end PowerShellExecutor

/-- C1 (amended half that holds, for `build_command`): for every
parameter map, every denylisted character, and every argument token that
`build_command` derives from the map (the tokens beyond the fixed pwsh
prefix and the caller-supplied script path), the token does not contain
the denylisted character. -/
theorem C1_buildArgv_no_denylisted_char
    (ps : List (String × PValue)) (t : String) (c : Char)
    (hc : c ∈ PowerShellExecutor.DANGEROUS_CHARS)
    (ht : t ∈ PowerShellExecutor.paramTokens ps) :
    c ∉ t.toList :=
  PowerShellExecutor.paramTokens_dangerfree ps hc ht

/-- Witness for C1: the map `{"Name": "a;b"}` yields the tokens
`["-Name", "ab"]`; the semicolon is in the denylist, the value token is
among the produced tokens, and the theorem shows it carries no
semicolon. -/
theorem C1_buildArgv_no_denylisted_char_witness :
    (Char.ofNat 59) ∈ PowerShellExecutor.DANGEROUS_CHARS ∧
    "ab" ∈ PowerShellExecutor.paramTokens
        [("Name", PValue.scalar (PScalar.str "a;b"))] ∧
    (Char.ofNat 59) ∉ ("ab" : String).toList :=
  ⟨by decide, by decide,
    C1_buildArgv_no_denylisted_char
      [("Name", PValue.scalar (PScalar.str "a;b"))] "ab" (Char.ofNat 59)
      (by decide) (by decide)⟩

/-- C10: a list-valued parameter always emits its `-name` token and a
comma-joined value token, even when every element sanitizes to the empty
string, while a scalar parameter whose sanitized value is empty is
omitted entirely. -/
theorem C10_list_param_always_emitted (key : String) (vs : List PScalar)
    (key2 : String) (sv : PScalar)
    (hempty : PowerShellExecutor.sanitize_parameter sv = "") :
    PowerShellExecutor.paramTokens [(key, PValue.list vs)]
      = ["-" ++ PowerShellExecutor.filterName key,
         pyJoin "," (vs.map PowerShellExecutor.sanitize_parameter)] ∧
    PowerShellExecutor.paramTokens [(key2, PValue.scalar sv)] = [] := by
  constructor
  · simp [PowerShellExecutor.paramTokens]
  · cases sv with
    | bool b => cases b <;> simp_all [PowerShellExecutor.sanitize_parameter,
        PowerShellExecutor.DANGEROUS_CHARS, PowerShellExecutor.removeChar,
        PScalar.pstr]
    | str s => simp [PowerShellExecutor.paramTokens, hempty]
    | int n => simp [PowerShellExecutor.paramTokens, hempty]
    | none => simp [PowerShellExecutor.paramTokens, hempty]

/-- Witness for C10: with `{"Items": [";"]}` (the lone element sanitizes
to the empty string) the tokens are `-Items` followed by an empty value
token, while a scalar `"|"` (also sanitizing to empty) emits nothing. -/
theorem C10_list_param_always_emitted_witness :
    PowerShellExecutor.paramTokens [("Items", PValue.list [PScalar.str ";"])]
      = ["-" ++ PowerShellExecutor.filterName "Items",
         pyJoin "," ([PScalar.str ";"].map PowerShellExecutor.sanitize_parameter)] ∧
    PowerShellExecutor.paramTokens [("Extra", PValue.scalar (PScalar.str "|"))]
      = [] :=
  C10_list_param_always_emitted "Items" [PScalar.str ";"] "Extra"
    (PScalar.str "|") (by decide)

namespace ScheduleManager

/-- The single-quote character (written by code point to keep the file
free of quote literals). -/
def squote : Char := Char.ofNat 39

/-- The backslash character. -/
def bslash : Char := Char.ofNat 92

/-- A one-character string holding a single quote. -/
def sq : String := String.mk [squote]

/-- The escaping of schedule_manager.py line 54: each single quote of
the stringified value becomes the shell escape sequence
quote-backslash-quote-quote. -/
def escapeQuote (s : String) : String :=
  String.mk (s.toList.foldr
    (fun c acc =>
      (if c = squote then [squote, bslash, squote, squote] else [c]) ++ acc)
    [])

/-- The guard `if value is not None and value != ""` (line 45): `None`
and the empty string are skipped; every other value (including `False`,
`0` and the empty list) passes. -/
def emitGuard : PValue → Bool
  | .scalar .none => false
  | .scalar (.str "") => false
  | _ => true

/-- The `param_str` accumulation of `_build_command` (lines 42-55):
names are used verbatim (no filtering), boolean true appends a flag,
lists append a comma-join of the raw stringified elements with no
quoting, and other scalars append the value single-quoted with
quote-escaping. -/
def param_str : List (String × PValue) → String
  | [] => ""
  | (key, v) :: rest =>
    (if emitGuard v then
      match v with
      | .scalar (.bool b) => if b then " -" ++ key else ""
      | .list vs => " -" ++ key ++ " " ++ pyJoin "," (vs.map PScalar.pstr)
      | .scalar sv => " -" ++ key ++ " " ++ sq ++ escapeQuote sv.pstr ++ sq
     else "") ++ param_str rest

/-- Function `_build_command` (lines 37-67): the pwsh invocation with the quoted
full script path, the parameter string, and appended redirection into
the per-schedule per-day log file.  `scriptsDir`/`logDir` stand for the
resolved `scripts_directory` and `log_directory`, `date` for
`datetime.now().strftime(%Y%m%d)`. -/
def build_shell_command (pwsh scriptsDir script_path : String)
    (parameters : List (String × PValue)) (logDir : String)
    (schedule_id : Int) (date : String) : String :=
  let full_script_path := scriptsDir ++ "/" ++ script_path
  let log_file :=
    logDir ++ "/schedule_" ++ toString schedule_id ++ "_" ++ date ++ ".log"
  pwsh ++ " -NoProfile -ExecutionPolicy Bypass " ++
    "-File " ++ sq ++ full_script_path ++ sq ++ param_str parameters ++ " " ++
    ">> " ++ sq ++ log_file ++ sq ++ " 2>&1"

/-- The `param_str` that claim C2 describes: `build_command`'s flag and
name rules (names filtered to word characters, boolean true a lone flag,
false nothing) with every scalar and list value single-quoted and
quote-escaped. -/
def param_str_claimed : List (String × PValue) → String
  | [] => ""
  | (key, v) :: rest =>
    (match v with
      | .scalar (.bool true) => " -" ++ PowerShellExecutor.filterName key
      | .scalar (.bool false) => ""
      | .list vs =>
          " -" ++ PowerShellExecutor.filterName key ++ " " ++ sq ++
            escapeQuote (pyJoin "," (vs.map PScalar.pstr)) ++ sq
      | .scalar sv =>
          " -" ++ PowerShellExecutor.filterName key ++ " " ++ sq ++
            escapeQuote sv.pstr ++ sq)
    ++ param_str_claimed rest

/-- The contribution of one map entry to `param_str`, as the code
actually behaves: `None` and `""` skipped, names verbatim, boolean true
a lone flag and false nothing, lists comma-joined raw, other scalars
single-quoted with quote-escaping. -/
def shellTokenOf (key : String) (v : PValue) : String :=
  match v with
  | .scalar .none => ""
  | .scalar (.str "") => ""
  | .scalar (.bool true) => " -" ++ key
  | .scalar (.bool false) => ""
  | .list vs => " -" ++ key ++ " " ++ pyJoin "," (vs.map PScalar.pstr)
  | .scalar sv => " -" ++ key ++ " " ++ sq ++ escapeQuote sv.pstr ++ sq

/-- Per-entry restatement of the amended C2 behavior. -/
def param_str_amended : List (String × PValue) → String
  | [] => ""
  | p :: rest => shellTokenOf p.1 p.2 ++ param_str_amended rest

end ScheduleManager

/-- C1 counterexample: with the parameter map `{"Name": ";"}` — the
semicolon is denylisted — the string `_build_command` produces does
contain the semicolon (scalar values are only single-quoted, never
stripped of denylisted characters), so the claim that
`buildShellCommand` never emits a denylisted character fails. -/
theorem C1_buildShellCommand_counterexample :
    (Char.ofNat 59) ∈ PowerShellExecutor.DANGEROUS_CHARS ∧
    (Char.ofNat 59) ∈ (ScheduleManager.build_shell_command "pwsh"
        "/opt/Scripts" "Utilities/Test.ps1"
        [("Name", PValue.scalar (PScalar.str ";"))]
        "/opt/Logs" 7 "20261012").toList := by
  constructor
  · decide
  · decide

/-- C2 counterexample: on the map `{"a|b": ["x"]}` the string produced
by `_build_command`'s parameter loop differs from the one the claim
describes: the code emits the name unfiltered and the list value
unquoted (` -a|b x`), while the claim requires the filtered name and a
quoted value (` -ab 'x'`). -/
theorem C2_shell_rules_counterexample :
    ScheduleManager.param_str [("a|b", PValue.list [PScalar.str "x"])]
      ≠ ScheduleManager.param_str_claimed
          [("a|b", PValue.list [PScalar.str "x"])] := by
  decide

/-- C2 amended: `_build_command`'s parameter loop skips `None` and
empty-string values, uses parameter names verbatim (no `[A-Za-z0-9_]`
filtering), emits a lone flag for boolean true and nothing for false,
single-quotes scalar values with embedded quotes escaped as
quote-backslash-quote-quote, and emits list values comma-joined with no
quoting or escaping. -/
theorem C2_shell_rules_amended (ps : List (String × PValue)) :
    ScheduleManager.param_str ps = ScheduleManager.param_str_amended ps := by
  induction ps with
  | nil => rfl
  | cons p rest ih =>
      obtain ⟨key, v⟩ := p
      cases v with
      | scalar sv =>
          cases sv with
          | bool b =>
              cases b <;>
                simp [ScheduleManager.param_str,
                  ScheduleManager.param_str_amended,
                  ScheduleManager.shellTokenOf, ScheduleManager.emitGuard, ih]
          | str s =>
              by_cases hs : s = ""
              · subst hs
                simp [ScheduleManager.param_str,
                  ScheduleManager.param_str_amended,
                  ScheduleManager.shellTokenOf, ScheduleManager.emitGuard, ih]
              · simp [ScheduleManager.param_str,
                  ScheduleManager.param_str_amended,
                  ScheduleManager.shellTokenOf, ScheduleManager.emitGuard, hs, ih]
          | int n =>
              simp [ScheduleManager.param_str,
                ScheduleManager.param_str_amended,
                ScheduleManager.shellTokenOf, ScheduleManager.emitGuard, ih]
          | none =>
              simp [ScheduleManager.param_str,
                ScheduleManager.param_str_amended,
                ScheduleManager.shellTokenOf, ScheduleManager.emitGuard, ih]
      | list vs =>
          simp [ScheduleManager.param_str, ScheduleManager.param_str_amended,
            ScheduleManager.shellTokenOf, ScheduleManager.emitGuard, ih]

namespace ScheduleManager

/-- Constant `CRON_COMMENT_PREFIX` (line 20). -/
def CRON_COMMENT_BASE : String := "M365_ADMIN_DASHBOARD"

/-- Function `_get_job_comment` (lines 33-35): the tag embedded in a cron job. -/
def cronCommentFor (schedule_id : Int) : String :=
  CRON_COMMENT_BASE ++ "_" ++ toString schedule_id

/-- One entry of the crontab: the command, the identifying comment, the
schedule fields and the enabled flag. -/
structure Job where
  command : String
  comment : String
  slices : String
  enabled : Bool
  deriving DecidableEq, Repr

/-- The manager's state: the in-memory `CronTab` object (`self.cron`)
and the state last persisted by `self.cron.write()`.  The two coincide
at construction (the tab is read from the user's crontab) and after
every successful write; failure paths can leave the in-memory tab ahead
of the persisted one. -/
structure MState where
  mem : List Job
  disk : List Job
  deriving DecidableEq, Repr

/-- Environment of a `ScheduleManager`: the grammar acceptance of the
underlying crontab library's `setall` (beyond the 5-field count, which
the manager checks itself), the behavior of
`_extract_script_from_command` (a regex over the stored command plus a
filesystem-dependent `relative_to`), and the path/date inputs of
`_build_command`. -/
structure Env where
  grammarOk : String → Bool
  extractScript : String → String
  pwsh : String
  scriptsDir : String
  logDir : String
  date : String

/-- Helper for `pyFields`: walk the characters accumulating the current
field (reversed); whitespace closes the field. -/
def splitWsAux : List Char → List Char → List String
  | [], acc => if acc.isEmpty then [] else [String.mk acc.reverse]
  | c :: rest, acc =>
      if c.isWhitespace then
        (if acc.isEmpty then [] else [String.mk acc.reverse])
          ++ splitWsAux rest []
      else splitWsAux rest (c :: acc)

/-- Python `expression.strip().split()`: maximal whitespace-separated
fields, with no empty pieces (leading and trailing whitespace is
irrelevant to `split()` with no argument, which subsumes the `strip`). -/
def pyFields (s : String) : List String := splitWsAux s.toList []

/-- The `for job in self.cron: ... break` loop of `delete_schedule`:
remove the first job carrying the comment. -/
def removeFirstJob (c : String) : List Job → List Job
  | [] => []
  | j :: rest => if j.comment = c then rest else j :: removeFirstJob c rest

/-- In-place mutation of the first job carrying the comment (the object
returned by `_find_job` is an element of the tab). -/
def mapFirstJob (c : String) (f : Job → Job) : List Job → List Job
  | [] => []
  | j :: rest => if j.comment = c then f j :: rest else j :: mapFirstJob c f rest

/-- Result of `delete_schedule`. -/
structure DeleteResult where
  success : Bool
  removed : Bool
  deriving DecidableEq, Repr

/-- Result of the other mutators and of `toggle_schedule`. -/
structure OpOutcome where
  success : Bool
  error : Option String
  deriving DecidableEq, Repr

/-- Function `delete_schedule` (lines 161-187): remove the first job tagged for
the id and persist only when something was removed; a missing job is a
success with `removed = False`. -/
def delete_schedule (s : MState) (schedule_id : Int) : MState × DeleteResult :=
  let c := cronCommentFor schedule_id
  if s.mem.any (fun j => j.comment = c) then
    let mem := removeFirstJob c s.mem
    ({ mem := mem, disk := mem }, { success := true, removed := true })
  else
    (s, { success := true, removed := false })

/-- Function `create_schedule` (lines 69-111): validate the field count, remove
any existing job for the id (delete-then-create), append a fresh job
(the library's default schedule is `* * * * *` and new jobs are
enabled), apply the cron expression via `setall` — whose grammar
rejection aborts before the final write, leaving the fresh job only in
memory — set the enabled flag and persist. -/
def create_schedule (env : Env) (s : MState) (schedule_id : Int)
    (script_path cron_expression : String)
    (parameters : List (String × PValue)) (enabled : Bool) :
    MState × OpOutcome :=
  if (pyFields cron_expression).length ≠ 5 then
    (s, { success := false,
          error := some ("Invalid cron expression: " ++ cron_expression) })
  else
    let s1 := (delete_schedule s schedule_id).1
    let command := build_shell_command env.pwsh env.scriptsDir script_path
        parameters env.logDir schedule_id env.date
    let newJob : Job :=
      { command := command, comment := cronCommentFor schedule_id,
        slices := "* * * * *", enabled := true }
    if env.grammarOk cron_expression then
      let finalJob := { newJob with slices := cron_expression, enabled := enabled }
      let mem := s1.mem ++ [finalJob]
      ({ mem := mem, disk := mem }, { success := true, error := none })
    else
      ({ s1 with mem := s1.mem ++ [newJob] },
       { success := false, error := some "setall rejected the expression" })

/-- The command-rebuild step of `update_schedule` (lines 127-130):
when a script path or parameters are supplied, the command is rebuilt,
re-deriving the script from the located job's stored command when no
new path (or an empty one) is given, and the located job is mutated in
place. -/
def updateCommandStep (env : Env) (schedule_id : Int) (job : Job)
    (script_path : Option String)
    (parameters : Option (List (String × PValue)))
    (mem : List Job) : List Job :=
  if script_path.isSome || parameters.isSome then
    let current_script :=
      match script_path with
      | Option.some sp => if sp = "" then env.extractScript job.command else sp
      | Option.none => env.extractScript job.command
    let command := build_shell_command env.pwsh env.scriptsDir current_script
        (parameters.getD []) env.logDir schedule_id env.date
    mapFirstJob (cronCommentFor schedule_id)
      (fun j => { j with command := command }) mem
  else mem

/-- The cron-expression step of `update_schedule` (lines 133-137): a
supplied falsy (empty) expression is skipped like `None`; otherwise the
field count is checked and `setall` applied, either of which can fail. -/
def updateCronStep (env : Env) (schedule_id : Int)
    (cron_expression : Option String) (mem : List Job) :
    Except String (List Job) :=
  match cron_expression with
  | Option.none => .ok mem
  | Option.some expr =>
      if expr = "" then .ok mem
      else if (pyFields expr).length ≠ 5 then
        .error ("Invalid cron expression: " ++ expr)
      else if env.grammarOk expr then
        .ok (mapFirstJob (cronCommentFor schedule_id)
              (fun j => { j with slices := expr }) mem)
      else .error "setall rejected the expression"

/-- The enabled-flag step of `update_schedule` (lines 140-141). -/
def updateEnableStep (schedule_id : Int) (enabled : Option Bool)
    (mem : List Job) : List Job :=
  match enabled with
  | Option.some b =>
      mapFirstJob (cronCommentFor schedule_id)
        (fun j => { j with enabled := b }) mem
  | Option.none => mem

/-- Function `update_schedule` (lines 113-159): locate the job by tag (missing ⇒
error, no change), apply the command, cron and enabled steps, and write
the tab; a cron validation failure aborts before the write but after
the in-memory command mutation. -/
def update_schedule (env : Env) (s : MState) (schedule_id : Int)
    (script_path : Option String) (cron_expression : Option String)
    (parameters : Option (List (String × PValue)))
    (enabled : Option Bool) : MState × OpOutcome :=
  match s.mem.find? (fun j => j.comment = cronCommentFor schedule_id) with
  | Option.none =>
      (s, { success := false,
            error := some ("Schedule " ++ toString schedule_id ++ " not found") })
  | Option.some job =>
      let mem1 := updateCommandStep env schedule_id job script_path parameters s.mem
      match updateCronStep env schedule_id cron_expression mem1 with
      | .error e =>
          ({ s with mem := mem1 }, { success := false, error := some e })
      | .ok mem2 =>
          let mem3 := updateEnableStep schedule_id enabled mem2
          ({ mem := mem3, disk := mem3 }, { success := true, error := none })


/-- Function `toggle_schedule` (lines 212-239): locate by tag (missing ⇒ "not
found" error, no change), flip the enabled flag and persist. -/
def toggle_schedule (s : MState) (schedule_id : Int) (enabled : Bool) :
    MState × OpOutcome :=
  match s.mem.find? (fun j => j.comment = cronCommentFor schedule_id) with
  | Option.none =>
      (s, { success := false,
            error := some ("Schedule " ++ toString schedule_id ++ " not found") })
  | Option.some _ =>
      let mem := mapFirstJob (cronCommentFor schedule_id)
        (fun j => { j with enabled := enabled }) s.mem
      ({ mem := mem, disk := mem }, { success := true, error := none })

/-- Number of jobs in a tab carrying a given comment. -/
def countFor (c : String) (l : List Job) : Nat :=
  (l.filter (fun j => j.comment = c)).length

end ScheduleManager

namespace ScheduleManager

/-- Result of `validate_cron_expression`. -/
structure ValidateResult where
  valid : Bool
  error : Option String
  description : Option String
  next_runs : List String
  deriving DecidableEq, Repr

/-- The scheduling library's `schedule().get_next(...)` as the
repository uses it.  Its optional argument is a result TYPE (float or
datetime), never a count: the four other call sites in
schedule_manager.py (lines 103, 151, 231, 297) call `get_next()` with no
argument and treat the result as a single timestamp.  Passing the
integer `5` (line 342) supplies `5` where a type is expected and the
library raises a TypeError; even a library that ignored the argument
would return one timestamp, which the caller's iteration would again
fail on.  `none` models calling with no argument. -/
def croniter_get_next (nextTime : String) (arg : Option Int) :
    Except String String :=
  match arg with
  | Option.none => .ok nextTime
  | Option.some _ =>
      .error "Invalid ret_type, only float or datetime is acceptable"

/-- Function `validate_cron_expression` (lines 323-349): a 5-field check, then a
trial `setall` on a throwaway tab, then the result dictionary — whose
`next_runs` entry evaluates `get_next(5)`, so the surrounding
try/except converts every grammatically valid expression into a
`valid = False` result carrying the library's TypeError message. -/
def validate_cron_expression (grammarOk : String → Bool)
    (nextTime : String) (expression : String) : ValidateResult :=
  if (pyFields expression).length ≠ 5 then
    { valid := false,
      error := some "Cron expression must have 5 parts: minute hour day month weekday",
      description := Option.none, next_runs := [] }
  else if grammarOk expression then
    match croniter_get_next nextTime (Option.some 5) with
    | .error e =>
        { valid := false, error := some e,
          description := Option.none, next_runs := [] }
    | .ok t =>
        { valid := true, error := Option.none,
          description := some "description", next_runs := [t] }
  else
    { valid := false, error := some "setall rejected the expression",
      description := Option.none, next_runs := [] }

theorem countFor_nil (c : String) : countFor c [] = 0 := rfl

theorem countFor_cons (c : String) (j : Job) (l : List Job) :
    countFor c (j :: l) = (if j.comment = c then 1 else 0) + countFor c l := by
  simp only [countFor, List.filter_cons]
  by_cases h : j.comment = c
  · simp [h, Nat.add_comm]
  · simp [h]

theorem countFor_append (c : String) (l₁ l₂ : List Job) :
    countFor c (l₁ ++ l₂) = countFor c l₁ + countFor c l₂ := by
  simp [countFor, List.filter_append]

theorem countFor_eq_zero_iff {c : String} {l : List Job} :
    countFor c l = 0 ↔ ∀ j ∈ l, ¬ j.comment = c := by
  simp [countFor, List.length_eq_zero, List.filter_eq_nil_iff]

theorem countFor_removeFirstJob_eq_zero (c : String) (l : List Job)
    (h : countFor c l ≤ 1) : countFor c (removeFirstJob c l) = 0 := by
  induction l with
  | nil => rfl
  | cons j rest ih =>
      rw [countFor_cons] at h
      by_cases hj : j.comment = c
      · simp only [removeFirstJob, hj, if_true]
        rw [if_pos hj] at h
        omega
      · simp only [removeFirstJob, hj, if_false]
        rw [countFor_cons, if_neg hj]
        rw [if_neg hj] at h
        simpa using ih (by omega)

theorem countFor_mapFirstJob (c c' : String) (f : Job → Job)
    (hf : ∀ j, (f j).comment = j.comment) (l : List Job) :
    countFor c (mapFirstJob c' f l) = countFor c l := by
  induction l with
  | nil => rfl
  | cons j rest ih =>
      by_cases hj : j.comment = c'
      · simp only [mapFirstJob, hj, if_true]
        rw [countFor_cons, countFor_cons, hf j]
      · simp only [mapFirstJob, hj, if_false]
        rw [countFor_cons, countFor_cons, ih]

/-- The one-job-per-schedule-id invariant on a manager state. -/
def oneJobInv (schedule_id : Int) (s : MState) : Prop :=
  countFor (cronCommentFor schedule_id) s.mem ≤ 1 ∧
  countFor (cronCommentFor schedule_id) s.disk ≤ 1

theorem delete_noop_of_count_zero (s : MState) (schedule_id : Int)
    (h : countFor (cronCommentFor schedule_id) s.mem = 0) :
    delete_schedule s schedule_id = (s, { success := true, removed := false }) := by
  have hany : s.mem.any (fun j => j.comment = cronCommentFor schedule_id) = false := by
    rw [List.any_eq_false]
    intro j hj
    simpa using countFor_eq_zero_iff.mp h j hj
  simp [delete_schedule, hany]

theorem delete_mem_count_zero (s : MState) (schedule_id : Int)
    (h : countFor (cronCommentFor schedule_id) s.mem ≤ 1) :
    countFor (cronCommentFor schedule_id) (delete_schedule s schedule_id).1.mem = 0 := by
  by_cases hany : s.mem.any (fun j => j.comment = cronCommentFor schedule_id)
  · simp only [delete_schedule, hany, if_true]
    exact countFor_removeFirstJob_eq_zero _ _ h
  · rw [Bool.not_eq_true] at hany
    simp only [delete_schedule, hany, Bool.false_eq_true, if_false]
    rw [countFor_eq_zero_iff]
    intro j hj
    have := List.any_eq_false.mp hany j hj
    simpa using this

theorem delete_preserves_inv (s : MState) (schedule_id : Int)
    (h : oneJobInv schedule_id s) :
    oneJobInv schedule_id (delete_schedule s schedule_id).1 := by
  have hmem := delete_mem_count_zero s schedule_id h.1
  by_cases hany : s.mem.any (fun j => j.comment = cronCommentFor schedule_id)
  · constructor
    · exact hmem.le.trans (by omega)
    · simp only [delete_schedule, hany, if_true] at hmem ⊢
      omega
  · rw [Bool.not_eq_true] at hany
    simp only [delete_schedule, hany, Bool.false_eq_true, if_false]
    exact h


theorem countFor_updateCommandStep (env : Env) (schedule_id : Int) (job : Job)
    (script_path : Option String)
    (parameters : Option (List (String × PValue))) (c : String)
    (mem : List Job) :
    countFor c (updateCommandStep env schedule_id job script_path
      parameters mem) = countFor c mem := by
  unfold updateCommandStep
  by_cases h : script_path.isSome || parameters.isSome
  · rw [if_pos h]
    dsimp only
    apply countFor_mapFirstJob
    exact fun _ => rfl
  · rw [if_neg h]

theorem countFor_updateCronStep (env : Env) (schedule_id : Int)
    (cron_expression : Option String) (c : String) (mem mem2 : List Job)
    (h : updateCronStep env schedule_id cron_expression mem = .ok mem2) :
    countFor c mem2 = countFor c mem := by
  unfold updateCronStep at h
  cases cron_expression with
  | none => cases h; rfl
  | some expr =>
      dsimp only at h
      by_cases he : expr = ""
      · rw [if_pos he] at h; cases h; rfl
      · rw [if_neg he] at h
        by_cases hf : (pyFields expr).length ≠ 5
        · rw [if_pos hf] at h; cases h
        · rw [if_neg hf] at h
          by_cases hg : env.grammarOk expr = true
          · rw [if_pos hg] at h
            cases h
            apply countFor_mapFirstJob
            exact fun _ => rfl
          · rw [if_neg hg] at h; cases h

theorem countFor_updateEnableStep (schedule_id : Int)
    (enabled : Option Bool) (c : String) (mem : List Job) :
    countFor c (updateEnableStep schedule_id enabled mem) = countFor c mem := by
  unfold updateEnableStep
  cases enabled with
  | none => rfl
  | some b =>
      dsimp only
      apply countFor_mapFirstJob
      exact fun _ => rfl

theorem update_mem_disk (env : Env) (s : MState) (schedule_id : Int)
    (script_path : Option String) (cron_expression : Option String)
    (parameters : Option (List (String × PValue))) (enabled : Option Bool) :
    countFor (cronCommentFor schedule_id)
      (update_schedule env s schedule_id script_path cron_expression
        parameters enabled).1.mem
      = countFor (cronCommentFor schedule_id) s.mem ∧
    ((update_schedule env s schedule_id script_path cron_expression
        parameters enabled).1.disk = s.disk ∨
     (update_schedule env s schedule_id script_path cron_expression
        parameters enabled).1.disk
       = (update_schedule env s schedule_id script_path cron_expression
          parameters enabled).1.mem) := by
  unfold update_schedule
  cases hfind : s.mem.find?
      (fun j => j.comment = cronCommentFor schedule_id) with
  | none => exact ⟨rfl, Or.inl rfl⟩
  | some job =>
      dsimp only
      cases hstep : updateCronStep env schedule_id cron_expression
          (updateCommandStep env schedule_id job script_path parameters s.mem) with
      | error e =>
          dsimp only
          exact ⟨countFor_updateCommandStep env schedule_id job script_path
              parameters _ s.mem, Or.inl rfl⟩
      | ok mem2 =>
          dsimp only
          refine ⟨?_, Or.inr rfl⟩
          rw [countFor_updateEnableStep,
            countFor_updateCronStep env schedule_id cron_expression _ _ mem2 hstep,
            countFor_updateCommandStep]

theorem toggle_mem_disk (s : MState) (schedule_id : Int) (enabled : Bool) :
    countFor (cronCommentFor schedule_id)
      (toggle_schedule s schedule_id enabled).1.mem
      = countFor (cronCommentFor schedule_id) s.mem ∧
    ((toggle_schedule s schedule_id enabled).1.disk = s.disk ∨
     (toggle_schedule s schedule_id enabled).1.disk
       = (toggle_schedule s schedule_id enabled).1.mem) := by
  unfold toggle_schedule
  cases hfind : s.mem.find?
      (fun j => j.comment = cronCommentFor schedule_id) with
  | none => exact ⟨rfl, Or.inl rfl⟩
  | some job =>
      dsimp only
      refine ⟨?_, Or.inr rfl⟩
      apply countFor_mapFirstJob
      exact fun _ => rfl

theorem create_mem_disk (env : Env) (s : MState) (schedule_id : Int)
    (script_path cron_expression : String)
    (parameters : List (String × PValue)) (enabled : Bool)
    (h : oneJobInv schedule_id s) :
    oneJobInv schedule_id (create_schedule env s schedule_id script_path
        cron_expression parameters enabled).1 ∧
    ((create_schedule env s schedule_id script_path cron_expression
        parameters enabled).2.success = true →
      countFor (cronCommentFor schedule_id) (create_schedule env s schedule_id
        script_path cron_expression parameters enabled).1.mem = 1 ∧
      countFor (cronCommentFor schedule_id) (create_schedule env s schedule_id
        script_path cron_expression parameters enabled).1.disk = 1) := by
  have hdel := delete_mem_count_zero s schedule_id h.1
  have hdelinv := delete_preserves_inv s schedule_id h
  unfold create_schedule
  by_cases hf : (pyFields cron_expression).length ≠ 5
  · rw [if_pos hf]
    exact ⟨h, fun hs => by simp at hs⟩
  · rw [if_neg hf]
    dsimp only
    by_cases hg : env.grammarOk cron_expression = true
    · rw [if_pos hg]
      dsimp only
      have hone : countFor (cronCommentFor schedule_id)
          ((delete_schedule s schedule_id).1.mem ++
            [{ command := build_shell_command env.pwsh env.scriptsDir
                  script_path parameters env.logDir schedule_id env.date,
               comment := cronCommentFor schedule_id,
               slices := cron_expression, enabled := enabled }]) = 1 := by
        rw [countFor_append, hdel, countFor_cons, countFor_nil]
        simp
      exact ⟨⟨le_of_eq hone, le_of_eq hone⟩, fun _ => ⟨hone, hone⟩⟩
    · rw [if_neg hg]
      dsimp only
      have hone : countFor (cronCommentFor schedule_id)
          ((delete_schedule s schedule_id).1.mem ++
            [{ command := build_shell_command env.pwsh env.scriptsDir
                  script_path parameters env.logDir schedule_id env.date,
               comment := cronCommentFor schedule_id,
               slices := "* * * * *", enabled := true }]) = 1 := by
        rw [countFor_append, hdel, countFor_cons, countFor_nil]
        simp
      exact ⟨⟨le_of_eq hone, hdelinv.2⟩, fun hs => by simp at hs⟩

/-- One administrative action on a fixed schedule id, with its
arguments. -/
inductive SchedOp where
  | create (script_path cron_expression : String)
      (parameters : List (String × PValue)) (enabled : Bool)
  | update (script_path : Option String) (cron_expression : Option String)
      (parameters : Option (List (String × PValue))) (enabled : Option Bool)
  | delete
  | toggle (enabled : Bool)

/-- The state reached by one operation (results discarded). -/
def applyOp (env : Env) (schedule_id : Int) (s : MState) : SchedOp → MState
  | .create sc ce ps en => (create_schedule env s schedule_id sc ce ps en).1
  | .update sp ce ps en => (update_schedule env s schedule_id sp ce ps en).1
  | .delete => (delete_schedule s schedule_id).1
  | .toggle b => (toggle_schedule s schedule_id b).1

/-- The state reached by a sequence of operations on one schedule id. -/
def applyOps (env : Env) (schedule_id : Int) (ops : List SchedOp)
    (s : MState) : MState :=
  ops.foldl (applyOp env schedule_id) s

theorem applyOp_preserves_inv (env : Env) (schedule_id : Int) (s : MState)
    (op : SchedOp) (h : oneJobInv schedule_id s) :
    oneJobInv schedule_id (applyOp env schedule_id s op) := by
  cases op with
  | create sc ce ps en =>
      exact (create_mem_disk env s schedule_id sc ce ps en h).1
  | update sp ce ps en =>
      obtain ⟨hmem, hdisk⟩ := update_mem_disk env s schedule_id sp ce ps en
      refine ⟨?_, ?_⟩
      · rw [applyOp, hmem]; exact h.1
      · rcases hdisk with hd | hd
        · rw [applyOp, hd]; exact h.2
        · rw [applyOp, hd, hmem]; exact h.1
  | delete => exact delete_preserves_inv s schedule_id h
  | toggle b =>
      obtain ⟨hmem, hdisk⟩ := toggle_mem_disk s schedule_id b
      refine ⟨?_, ?_⟩
      · rw [applyOp, hmem]; exact h.1
      · rcases hdisk with hd | hd
        · rw [applyOp, hd]; exact h.2
        · rw [applyOp, hd, hmem]; exact h.1

/-- C5: from a state holding at most one external job tagged with a
schedule id (in memory and on disk), any sequence of
create/update/delete/toggle operations on that id leaves at most one
such job; moreover a successful create leaves exactly one, and update
never changes the number of jobs for the id. -/
theorem C5_one_job_per_schedule_id (env : Env) (schedule_id : Int)
    (s : MState) (ops : List SchedOp) (hinv : oneJobInv schedule_id s) :
    oneJobInv schedule_id (applyOps env schedule_id ops s) ∧
    (∀ sc ce ps en,
      (create_schedule env s schedule_id sc ce ps en).2.success = true →
        countFor (cronCommentFor schedule_id)
          (create_schedule env s schedule_id sc ce ps en).1.mem = 1 ∧
        countFor (cronCommentFor schedule_id)
          (create_schedule env s schedule_id sc ce ps en).1.disk = 1) ∧
    (∀ sp ce ps en,
      countFor (cronCommentFor schedule_id)
        (update_schedule env s schedule_id sp ce ps en).1.mem
        = countFor (cronCommentFor schedule_id) s.mem) := by
  refine ⟨?_, ?_, ?_⟩
  · have main : ∀ (l : List SchedOp) (t : MState), oneJobInv schedule_id t →
        oneJobInv schedule_id (applyOps env schedule_id l t) := by
      intro l
      induction l with
      | nil => intro t ht; exact ht
      | cons op rest ih =>
          intro t ht
          exact ih _ (applyOp_preserves_inv env schedule_id t op ht)
    exact main ops s hinv
  · intro sc ce ps en hsucc
    exact (create_mem_disk env s schedule_id sc ce ps en hinv).2 hsucc
  · intro sp ce ps en
    exact (update_mem_disk env s schedule_id sp ce ps en).1

/-- A concrete environment for witnesses: every 5-field expression is
accepted by the library grammar. -/
def env0 : Env :=
  { grammarOk := fun e => (pyFields e).length = 5,
    extractScript := fun _ => "",
    pwsh := "pwsh", scriptsDir := "/opt/Scripts", logDir := "/opt/Logs",
    date := "20261012" }

/-- A concrete job tagged for schedule id 1. -/
def jobA : Job :=
  { command := "pwsh -NoProfile -File x.ps1", comment := cronCommentFor 1,
    slices := "0 * * * *", enabled := true }

/-- Witness for C5: starting from the empty crontab, a create of
schedule 7 followed by a toggle and a delete keeps the invariant; the
create-success and update-count conclusions are instantiated at the
same state. -/
theorem C5_one_job_per_schedule_id_witness :
    oneJobInv 7 (applyOps env0 7
      [SchedOp.create "Utilities/Backup.ps1" "0 2 * * *"
          [("Full", PValue.scalar (PScalar.bool true))] true,
        SchedOp.toggle false, SchedOp.delete] { mem := [], disk := [] }) ∧
    (∀ sc ce ps en,
      (create_schedule env0 { mem := [], disk := [] } 7 sc ce ps en).2.success
          = true →
        countFor (cronCommentFor 7)
          (create_schedule env0 { mem := [], disk := [] } 7 sc ce ps en).1.mem
            = 1 ∧
        countFor (cronCommentFor 7)
          (create_schedule env0 { mem := [], disk := [] } 7 sc ce ps en).1.disk
            = 1) ∧
    (∀ sp ce ps en,
      countFor (cronCommentFor 7)
        (update_schedule env0 { mem := [], disk := [] } 7 sp ce ps en).1.mem
        = countFor (cronCommentFor 7)
            (MState.mk [] []).mem) :=
  C5_one_job_per_schedule_id env0 7 { mem := [], disk := [] }
    [SchedOp.create "Utilities/Backup.ps1" "0 2 * * *"
        [("Full", PValue.scalar (PScalar.bool true))] true,
      SchedOp.toggle false, SchedOp.delete]
    ⟨Nat.zero_le 1, Nat.zero_le 1⟩

/-- C6 counterexample: the empty string is a cron expression with zero
(≠ 5) whitespace-separated fields, yet `update_schedule` applied to an
existing schedule with `cron_expression = ""` does not reject it: the
`if cron_expression:` guard treats the falsy empty string as "not
supplied", so the call succeeds. -/
theorem C6_empty_cron_update_counterexample :
    (pyFields "").length ≠ 5 ∧
    (update_schedule env0 { mem := [jobA], disk := [jobA] } 1
        Option.none (Option.some "") Option.none Option.none).2.success
      = true := by
  constructor
  · decide
  · decide

theorem updateCronStep_malformed (env : Env) (schedule_id : Int)
    (expr : String) (mem : List Job) (hne : expr ≠ "")
    (hf : (pyFields expr).length ≠ 5) :
    updateCronStep env schedule_id (Option.some expr) mem
      = .error ("Invalid cron expression: " ++ expr) := by
  unfold updateCronStep
  dsimp only
  rw [if_neg hne, if_pos hf]

/-- C6 amended: for every cron expression with a whitespace field count
other than 5 — the empty string included — `create_schedule` rejects it
leaving the state untouched and `validate_cron_expression` reports it
invalid; `update_schedule` given such an expression reports failure and
leaves the persisted crontab untouched whenever the expression is
non-empty (the empty string is the one malformed expression
`update_schedule` silently accepts, per the counterexample). -/
theorem C6_malformed_cron_rejected (env : Env) (s : MState)
    (schedule_id : Int) (script_path : String)
    (parameters : List (String × PValue)) (enabled : Bool)
    (sp : Option String) (pa : Option (List (String × PValue)))
    (en : Option Bool) (grammarOk2 : String → Bool) (nextTime : String)
    (expr : String) (hf : (pyFields expr).length ≠ 5) :
    ((create_schedule env s schedule_id script_path expr parameters
        enabled).1 = s ∧
     (create_schedule env s schedule_id script_path expr parameters
        enabled).2.success = false) ∧
    (expr ≠ "" →
      (update_schedule env s schedule_id sp (Option.some expr) pa
          en).2.success = false ∧
      (update_schedule env s schedule_id sp (Option.some expr) pa
          en).1.disk = s.disk) ∧
    (validate_cron_expression grammarOk2 nextTime expr).valid = false := by
  refine ⟨⟨?_, ?_⟩, fun hne => ?_, ?_⟩
  · unfold create_schedule
    rw [if_pos hf]
  · unfold create_schedule
    rw [if_pos hf]
  · unfold update_schedule
    cases hfind : s.mem.find?
        (fun j => j.comment = cronCommentFor schedule_id) with
    | none => exact ⟨rfl, rfl⟩
    | some job =>
        dsimp only
        rw [updateCronStep_malformed env schedule_id expr _ hne hf]
        exact ⟨rfl, rfl⟩
  · unfold validate_cron_expression
    rw [if_pos hf]

/-- Witness for C6: the three-field expression `"1 2 3"` is rejected by
create, update and validate on a concrete state holding schedule 1, and
the empty expression (zero fields) is likewise rejected by create and
validate. -/
theorem C6_malformed_cron_rejected_witness :
    ((create_schedule env0 { mem := [jobA], disk := [jobA] } 1 "x.ps1"
        "1 2 3" [] true).1 = { mem := [jobA], disk := [jobA] } ∧
     (create_schedule env0 { mem := [jobA], disk := [jobA] } 1 "x.ps1"
        "1 2 3" [] true).2.success = false) ∧
    ((update_schedule env0 { mem := [jobA], disk := [jobA] } 1
        Option.none (Option.some "1 2 3") Option.none
        Option.none).2.success = false ∧
     (update_schedule env0 { mem := [jobA], disk := [jobA] } 1
        Option.none (Option.some "1 2 3") Option.none
        Option.none).1.disk = (MState.mk [jobA] [jobA]).disk) ∧
    (validate_cron_expression env0.grammarOk "t" "1 2 3").valid = false ∧
    ((create_schedule env0 { mem := [jobA], disk := [jobA] } 1 "x.ps1"
        "" [] true).1 = { mem := [jobA], disk := [jobA] } ∧
     (create_schedule env0 { mem := [jobA], disk := [jobA] } 1 "x.ps1"
        "" [] true).2.success = false) ∧
    (validate_cron_expression env0.grammarOk "t" "").valid = false :=
  have h3 := C6_malformed_cron_rejected env0
    { mem := [jobA], disk := [jobA] } 1 "x.ps1" [] true Option.none
    Option.none Option.none env0.grammarOk "t" "1 2 3" (by decide)
  have h0 := C6_malformed_cron_rejected env0
    { mem := [jobA], disk := [jobA] } 1 "x.ps1" [] true Option.none
    Option.none Option.none env0.grammarOk "t" "" (by decide)
  ⟨h3.1, h3.2.1 (by decide), h3.2.2, h0.1, h0.2.2⟩

theorem countFor_eq_zero_of_any_false {c : String} {l : List Job}
    (h : l.any (fun j => j.comment = c) = false) : countFor c l = 0 := by
  rw [countFor_eq_zero_iff]
  intro j hj
  simpa using List.any_eq_false.mp h j hj

theorem find_none_of_count_zero {c : String} {l : List Job}
    (h : countFor c l = 0) :
    l.find? (fun j => j.comment = c) = Option.none := by
  rw [List.find?_eq_none]
  intro j hj
  simpa using countFor_eq_zero_iff.mp h j hj

/-- C7: deleting or toggling a schedule id with no matching external job
is benign — delete answers success with `removed = False`, toggle
answers a "not found" error, neither raises nor mutates the store — and
deleting twice in a row leaves the second call reporting
`removed = False` with no error and a job count of zero for the id. -/
theorem C7_missing_schedule_benign (s : MState) (schedule_id : Int)
    (b : Bool) :
    (countFor (cronCommentFor schedule_id) s.mem = 0 →
      delete_schedule s schedule_id
          = (s, { success := true, removed := false }) ∧
      toggle_schedule s schedule_id b
          = (s, { success := false,
                  error := some ("Schedule " ++ toString schedule_id
                    ++ " not found") })) ∧
    (countFor (cronCommentFor schedule_id) s.mem ≤ 1 →
     countFor (cronCommentFor schedule_id) s.disk
        ≤ countFor (cronCommentFor schedule_id) s.mem →
      (delete_schedule (delete_schedule s schedule_id).1 schedule_id).2
          = { success := true, removed := false } ∧
      (delete_schedule (delete_schedule s schedule_id).1 schedule_id).1
          = (delete_schedule s schedule_id).1 ∧
      countFor (cronCommentFor schedule_id)
        (delete_schedule (delete_schedule s schedule_id).1
          schedule_id).1.mem = 0 ∧
      countFor (cronCommentFor schedule_id)
        (delete_schedule (delete_schedule s schedule_id).1
          schedule_id).1.disk = 0) := by
  constructor
  · intro h0
    refine ⟨delete_noop_of_count_zero s schedule_id h0, ?_⟩
    unfold toggle_schedule
    rw [find_none_of_count_zero h0]
  · intro hm hd
    by_cases hany : s.mem.any
        (fun j => j.comment = cronCommentFor schedule_id) = true
    · have h1 : (delete_schedule s schedule_id).1
          = { mem := removeFirstJob (cronCommentFor schedule_id) s.mem,
              disk := removeFirstJob (cronCommentFor schedule_id) s.mem } := by
        unfold delete_schedule
        dsimp only
        rw [if_pos hany]
      have hzero : countFor (cronCommentFor schedule_id)
          (removeFirstJob (cronCommentFor schedule_id) s.mem) = 0 :=
        countFor_removeFirstJob_eq_zero _ _ hm
      rw [h1]
      have hnoop := delete_noop_of_count_zero
        { mem := removeFirstJob (cronCommentFor schedule_id) s.mem,
          disk := removeFirstJob (cronCommentFor schedule_id) s.mem }
        schedule_id hzero
      rw [hnoop]
      exact ⟨rfl, rfl, hzero, hzero⟩
    · have h0 : countFor (cronCommentFor schedule_id) s.mem = 0 :=
        countFor_eq_zero_of_any_false (Bool.not_eq_true _ ▸ eq_false_of_ne_true hany)
      have h1 := delete_noop_of_count_zero s schedule_id h0
      rw [h1]
      have hdisk0 : countFor (cronCommentFor schedule_id) s.disk = 0 := by
        omega
      rw [h1]
      exact ⟨rfl, rfl, h0, hdisk0⟩

/-- Witness for C7: schedule id 2 has no job in a store holding only a
job for id 1; delete and toggle are benign and double-delete keeps the
count at zero. -/
theorem C7_missing_schedule_benign_witness :
    (delete_schedule { mem := [jobA], disk := [jobA] } 2
        = ({ mem := [jobA], disk := [jobA] },
           { success := true, removed := false }) ∧
     toggle_schedule { mem := [jobA], disk := [jobA] } 2 true
        = ({ mem := [jobA], disk := [jobA] },
           { success := false, error := some "Schedule 2 not found" })) ∧
    ((delete_schedule
        (delete_schedule { mem := [jobA], disk := [jobA] } 2).1 2).2
        = { success := true, removed := false } ∧
     (delete_schedule
        (delete_schedule { mem := [jobA], disk := [jobA] } 2).1 2).1
        = (delete_schedule { mem := [jobA], disk := [jobA] } 2).1 ∧
     countFor (cronCommentFor 2)
       (delete_schedule
         (delete_schedule { mem := [jobA], disk := [jobA] } 2).1 2).1.mem
         = 0 ∧
     countFor (cronCommentFor 2)
       (delete_schedule
         (delete_schedule { mem := [jobA], disk := [jobA] } 2).1 2).1.disk
         = 0) :=
  ⟨(C7_missing_schedule_benign { mem := [jobA], disk := [jobA] } 2 true).1
      (by decide),
   (C7_missing_schedule_benign { mem := [jobA], disk := [jobA] } 2 true).2
      (by decide) (by decide)⟩

end ScheduleManager

/-- C9 (code behavior at the failing inputs): `validate_cron_expression`
reports `valid = False` with an empty `next_runs` list for EVERY
expression — malformed ones via the field-count check, well-formed ones
because `get_next(5)` passes the integer 5 where the scheduling library
expects a result type, so the construction of the success dictionary
raises and the surrounding except-branch answers invalid. -/
theorem C9_validate_never_reports_valid (grammarOk : String → Bool)
    (nextTime : String) (expr : String) :
    (ScheduleManager.validate_cron_expression grammarOk nextTime expr).valid
        = false ∧
    (ScheduleManager.validate_cron_expression grammarOk nextTime
        expr).next_runs = [] := by
  unfold ScheduleManager.validate_cron_expression
  by_cases hf : (ScheduleManager.pyFields expr).length ≠ 5
  · rw [if_pos hf]; exact ⟨rfl, rfl⟩
  · rw [if_neg hf]
    by_cases hg : grammarOk expr = true
    · rw [if_pos hg]; exact ⟨rfl, rfl⟩
    · rw [if_neg hg]; exact ⟨rfl, rfl⟩

namespace PowerShellExecutor

/-- An event of the streaming execution.  Timestamps and the duration
text of terminal messages are wall-clock outputs and are omitted; the
`complete` payload keeps the exit code the claims are about. -/
inductive Event where
  | start (message : String)
  | stdoutLine (message : String)
  | stderrBlock (message : String)
  | complete (exit_code : Int)
  | error (message : String)
  deriving DecidableEq, Repr

/-- Events `complete` and `error` are the terminal ones. -/
def Event.isTerminal : Event → Bool
  | .complete _ => true
  | .error _ => true
  | _ => false

/-- Python `line.rstrip()`. -/
def pyRstrip (s : String) : String :=
  String.mk (s.toList.reverse.dropWhile Char.isWhitespace).reverse

/-- Helper for `pathName`: the characters of the last path component. -/
def lastComponentAux : List Char → List Char → List Char
  | [], acc => acc.reverse
  | c :: rest, acc =>
      if c = Char.ofNat 47 then lastComponentAux rest []
      else lastComponentAux rest (c :: acc)

/-- Python `Path(p).name`: the final path component. -/
def pathName (p : String) : String :=
  String.mk (lastComponentAux p.toList [])

/-- Observable behavior of the spawned process in streaming mode: its
stdout lines (as read by `readline`, rstripped by the loop), the stderr
text read after exit, its exit code, and whether it exits before the
configured timeout once stdout is drained. -/
structure StreamProc where
  lines : List String
  stderrText : String
  exitCode : Int
  exitsInTime : Bool
  deriving DecidableEq, Repr

/-- Function `execute_script_stream` (lines 166-253): the emitted event sequence
paired with whether any path killed the subprocess.  An invalid path
yields a lone error event before any spawn; otherwise a start event,
one stdout event per line in order, then — after `process.wait` — a
batched stderr event when stderr is nonempty and a complete event with
the exit code; if `wait` exceeds the timeout the `TimeoutExpired`
handler emits an error event, and no path of the function calls `kill`
(the second component is `false` throughout). -/
def execute_script_stream (valid : Bool) (script_path : String)
    (p : StreamProc) : List Event × Bool :=
  if valid = false then
    ([Event.error "Invalid script path"], false)
  else
    let evs := Event.start ("Starting execution of " ++ pathName script_path)
      :: p.lines.map (fun l => Event.stdoutLine (pyRstrip l))
    if p.exitsInTime then
      (evs ++ (if p.stderrText = "" then []
               else [Event.stderrBlock p.stderrText])
           ++ [Event.complete p.exitCode], false)
    else
      (evs ++ [Event.error "Script execution timed out"], false)

/-- Observable behavior of the process in synchronous mode: captured
output, exit code, and runtime in the same (abstract) unit as the
configured timeout. -/
structure SyncProc where
  stdout : String
  stderr : String
  exitCode : Int
  runtime : Nat
  deriving DecidableEq, Repr

/-- Result dictionary of `execute_script`. -/
structure ExecResult where
  success : Bool
  exit_code : Int
  stdout : String
  stderr : String
  duration : Nat
  deriving DecidableEq, Repr

/-- Function `execute_script` (lines 97-164) paired with whether the subprocess
was killed: an invalid path is rejected with the -1 sentinel before any
spawn; a process finishing within the timeout yields its exit code and
output; on timeout `subprocess.run` kills the child and raises
`TimeoutExpired`, and the handler returns the -2 sentinel with the
elapsed duration (the timeout, in the model's abstract clock). -/
def execute_script (valid : Bool) (timeout : Nat) (p : SyncProc) :
    ExecResult × Bool :=
  if valid = false then
    ({ success := false, exit_code := -1, stdout := "",
       stderr := "Invalid script path", duration := 0 }, false)
  else if p.runtime ≤ timeout then
    ({ success := p.exitCode == 0, exit_code := p.exitCode,
       stdout := p.stdout, stderr := p.stderr, duration := p.runtime },
     false)
  else
    ({ success := false, exit_code := -2, stdout := "",
       stderr := "Script execution timed out", duration := timeout }, true)

end PowerShellExecutor

/-- C4 (code behavior at the failing input): a valid script whose
stdout is drained but which does not exit within the timeout makes the
streaming executor emit a terminal error event WITHOUT killing the
process (`process.wait` does not kill on `TimeoutExpired` and the
handler never does), while the synchronous executor in the same
situation kills the child and returns the -2 sentinel with
duration equal to the timeout. -/
theorem C4_stream_timeout_leaves_process_alive :
    ((PowerShellExecutor.execute_script_stream true "Utilities/Slow.ps1"
        { lines := ["working"], stderrText := "", exitCode := 0,
          exitsInTime := false }).1.getLast?
        = some (PowerShellExecutor.Event.error
            "Script execution timed out") ∧
     (PowerShellExecutor.execute_script_stream true "Utilities/Slow.ps1"
        { lines := ["working"], stderrText := "", exitCode := 0,
          exitsInTime := false }).2 = false) ∧
    ((PowerShellExecutor.execute_script true 3600
        { stdout := "", stderr := "", exitCode := 0, runtime := 3601 }).2
        = true ∧
     (PowerShellExecutor.execute_script true 3600
        { stdout := "", stderr := "", exitCode := 0,
          runtime := 3601 }).1.exit_code = -2 ∧
     (PowerShellExecutor.execute_script true 3600
        { stdout := "", stderr := "", exitCode := 0,
          runtime := 3601 }).1.success = false ∧
     (PowerShellExecutor.execute_script true 3600
        { stdout := "", stderr := "", exitCode := 0,
          runtime := 3601 }).1.duration = 3600) := by
  decide

namespace PowerShellExecutor

theorem filter_terminal_stdout_map (l : List String) :
    (l.map (fun s => Event.stdoutLine (pyRstrip s))).filter Event.isTerminal
      = [] := by
  induction l with
  | nil => rfl
  | cons a t ih => simp [Event.isTerminal, ih]

end PowerShellExecutor

/-- C8: for a valid script whose process exits with code 0 within the
timeout after writing its stdout lines, the streamed event sequence is
exactly one start event, the stdout-line events in process order, the
batched stderr block when stderr is nonempty, and one complete event
with exit code 0; the complete event is the unique terminal event and
comes last. -/
theorem C8_stream_event_order (script_path : String)
    (p : PowerShellExecutor.StreamProc) (hexit : p.exitsInTime = true)
    (hcode : p.exitCode = 0) :
    (PowerShellExecutor.execute_script_stream true script_path p).1
      = (PowerShellExecutor.Event.start
            ("Starting execution of " ++ PowerShellExecutor.pathName
              script_path)
          :: p.lines.map
              (fun l => PowerShellExecutor.Event.stdoutLine
                (PowerShellExecutor.pyRstrip l)))
        ++ (if p.stderrText = "" then []
            else [PowerShellExecutor.Event.stderrBlock p.stderrText])
        ++ [PowerShellExecutor.Event.complete 0] ∧
    ((PowerShellExecutor.execute_script_stream true script_path p).1.filter
        PowerShellExecutor.Event.isTerminal)
      = [PowerShellExecutor.Event.complete 0] ∧
    (PowerShellExecutor.execute_script_stream true script_path
        p).1.getLast? = some (PowerShellExecutor.Event.complete 0) := by
  have hmain : (PowerShellExecutor.execute_script_stream true script_path
      p).1
      = (PowerShellExecutor.Event.start
            ("Starting execution of " ++ PowerShellExecutor.pathName
              script_path)
          :: p.lines.map
              (fun l => PowerShellExecutor.Event.stdoutLine
                (PowerShellExecutor.pyRstrip l)))
        ++ (if p.stderrText = "" then []
            else [PowerShellExecutor.Event.stderrBlock p.stderrText])
        ++ [PowerShellExecutor.Event.complete 0] := by
    unfold PowerShellExecutor.execute_script_stream
    rw [if_neg (by decide)]
    dsimp only
    rw [if_pos hexit, hcode]
  refine ⟨hmain, ?_, ?_⟩
  · rw [hmain]
    by_cases hs : p.stderrText = ""
    · simp [hs, List.filter_append,
        PowerShellExecutor.filter_terminal_stdout_map,
        PowerShellExecutor.Event.isTerminal]
    · simp [hs, List.filter_append,
        PowerShellExecutor.filter_terminal_stdout_map,
        PowerShellExecutor.Event.isTerminal]
  · rw [hmain]
    exact List.getLast?_concat _

/-- Witness for C8: a script in `Utilities/Test.ps1` printing `alpha`
and `beta ` (the trailing blank is rstripped) and exiting 0 produces
exactly start, the two stdout events in order, and a final complete
event with exit code 0. -/
theorem C8_stream_event_order_witness :
    (PowerShellExecutor.execute_script_stream true "Utilities/Test.ps1"
        { lines := ["alpha", "beta "], stderrText := "", exitCode := 0,
          exitsInTime := true }).1
      = [PowerShellExecutor.Event.start "Starting execution of Test.ps1",
         PowerShellExecutor.Event.stdoutLine "alpha",
         PowerShellExecutor.Event.stdoutLine "beta",
         PowerShellExecutor.Event.complete 0] ∧
    ((PowerShellExecutor.execute_script_stream true "Utilities/Test.ps1"
        { lines := ["alpha", "beta "], stderrText := "", exitCode := 0,
          exitsInTime := true }).1.filter
        PowerShellExecutor.Event.isTerminal)
      = [PowerShellExecutor.Event.complete 0] ∧
    (PowerShellExecutor.execute_script_stream true "Utilities/Test.ps1"
        { lines := ["alpha", "beta "], stderrText := "", exitCode := 0,
          exitsInTime := true }).1.getLast?
      = some (PowerShellExecutor.Event.complete 0) := by
  have h := C8_stream_event_order "Utilities/Test.ps1"
    { lines := ["alpha", "beta "], stderrText := "", exitCode := 0,
      exitsInTime := true } rfl rfl
  exact ⟨by rw [h.1]; decide, h.2.1, h.2.2⟩

namespace PowerShellExecutor

/-- Whether one string is a prefix of another (Python
`str.startswith`). -/
def strStartsWith (s pre : String) : Bool :=
  pre.toList.isPrefixOf s.toList

/-- Lower-casing (Python `str.lower()` on the ASCII suffixes at hand). -/
def lowerStr (s : String) : String :=
  String.mk (s.toList.map Char.toLower)

/-- Python `Path(p).suffix`: the final component's extension including
the dot; empty when the name has no dot, starts with its only dot, or
ends with the dot. -/
def pySuffix (p : String) : String :=
  let cs := (pathName p).toList
  let after := cs.reverse.takeWhile (fun c => c ≠ Char.ofNat 46)
  if after.length = cs.length then ""
  else if cs.length - 1 - after.length = 0 then ""
  else if after.length = 0 then ""
  else String.mk (Char.ofNat 46 :: after.reverse)

/-- Function `validate_script_path` (lines 26-52) over an abstract filesystem
(`fsExists`): the argument is the resolved path (the HTTP routes pass
an already-resolved absolute path, and resolving an absolute path is
the identity).  The extension must be `.ps1` (case-insensitively), the
file must exist, and only when an allowed directory is supplied is the
containment check performed — by `str.startswith` on the resolved
strings, with no trailing separator. -/
def validate_script_path (fsExists : String → Bool) (script_path : String)
    (allowed_directory : Option String) : Bool :=
  if (lowerStr (pySuffix script_path) == ".ps1") = false then false
  else if fsExists script_path = false then false
  else
    match allowed_directory with
    | Option.none => true
    | Option.some d => strStartsWith script_path d

/-- Outcome of one execution request as routed through app.py. -/
inductive RouteOutcome where
  | rejected_path
  | rejected_missing
  | rejected_invalid
  | spawned
  deriving DecidableEq, Repr

/-- The validation pipeline shared by the `/api/execute` and
`/api/execute/stream` routes (app.py lines 205-224 and 263-284)
composed with the executor's own validation: the route resolves
`scripts_dir / script_path` (the model receives the resolved
`full_path`), rejects when the resolved string does not start with the
resolved root string, rejects when the file is missing, and otherwise
calls `execute_script`/`execute_script_stream`, which validate the path
again — without passing `allowed_directory` — before spawning the
subprocess. -/
def route_execute (fsExists : String → Bool)
    (scriptsDir full_path : String) : RouteOutcome :=
  if (strStartsWith full_path scriptsDir) = false then
    RouteOutcome.rejected_path
  else if fsExists full_path = false then RouteOutcome.rejected_missing
  else if validate_script_path fsExists full_path Option.none = false then
    RouteOutcome.rejected_invalid
  else RouteOutcome.spawned

/-- Modelled from the spec: a resolved path is a descendant of the
trusted root when it lies strictly below it, i.e. extends the root by a
path separator. -/
def isDescendant (p root : String) : Bool :=
  strStartsWith p (root ++ "/")

end PowerShellExecutor

/-- C3 (code behavior at the failing input): with trusted root
`/opt/Scripts`, the request path `../Scripts_evil/x.ps1` resolves to
`/opt/Scripts_evil/x.ps1` — an existing `.ps1` file that is NOT a
descendant of the root — yet both the route's `startswith` check (no
trailing separator) and the executor's validation accept it and a
subprocess is spawned; moreover the executor functions alone never
check containment at all (`validate_script_path` is called without
`allowed_directory`), accepting an arbitrary existing `.ps1` such as
`/outside/evil.ps1`. -/
theorem C3_containment_check_bypassed :
    PowerShellExecutor.isDescendant "/opt/Scripts_evil/x.ps1"
        "/opt/Scripts" = false ∧
    PowerShellExecutor.route_execute
        (fun q => q == "/opt/Scripts_evil/x.ps1") "/opt/Scripts"
        "/opt/Scripts_evil/x.ps1"
      = PowerShellExecutor.RouteOutcome.spawned ∧
    PowerShellExecutor.validate_script_path
        (fun q => q == "/outside/evil.ps1") "/outside/evil.ps1"
        Option.none = true := by
  decide
